import Mathlib

/-!
Shallow embedding of `src/rag_tutorial.py`: a sequential RAG pipeline that
sets up a PostgreSQL table with a pgvector column, splits a document into
sentence chunks, embeds each chunk via an embedding service, stores
(content, embedding) rows, and answers a question by retrieving the three
nearest rows by cosine distance and feeding them to a generation service.

Text is modelled as `List Char` (matching Python `str` operations on
characters), embedding vectors as `List ℝ`, the two Ollama endpoints as
oracles returning `Option` (failure = the caught `RequestError` /
`ResponseError` / generic `Exception` paths), and the database `documents`
table as a list of rows.
-/

namespace RagTutorial

/-- `VECTOR_DIMENSION = 768` from the configuration block. -/
def VECTOR_DIMENSION : Nat := 768

/-- Python whitespace characters recognised by `str.strip()`. -/
def isPySpace (c : Char) : Bool :=
  c = ' ' || c = '\t' || c = '\n' || c = '\r' || c = '\x0b' || c = '\x0c'

/-- Python `s.split('.')`: split on every occurrence of `'.'`, keeping empty
fragments; `''.split('.') = ['']`. -/
def splitOnDot : List Char → List (List Char)
  | [] => [[]]
  | c :: cs =>
    if c = '.' then [] :: splitOnDot cs
    else
      match splitOnDot cs with
      | [] => [[c]]
      | t :: ts => (c :: t) :: ts

/-- Python `s.strip()`: drop leading and trailing whitespace. -/
def strip (s : List Char) : List Char :=
  ((s.dropWhile isPySpace).reverse.dropWhile isPySpace).reverse

/-- Lines 150–151: `chunks = document.split('.')` followed by
`[chunk.strip() for chunk in chunks if chunk.strip()]`. -/
def chunksOf (document : List Char) : List (List Char) :=
  ((splitOnDot document).map strip).filter (fun c => c ≠ [])

/-- One row of the `documents` table: `(content TEXT, embedding VECTOR(768))`
(the SERIAL id is left implicit; rows are kept in insertion order). -/
structure Row where
  content : List Char
  embedding : List ℝ


/-- The `documents` table contents. -/
abbrev DB := List Row

/-- The embedding service (`client.embeddings` with the fixed model): maps a
prompt to an embedding vector, or `none` on request/response failure. -/
abbrev Embed := List Char → Option (List ℝ)

/-- The generation service in streaming mode (`client.generate` with
`stream=True`): maps a prompt to the list of streamed response fragments, or
`none` on failure. -/
abbrev Generate := List Char → Option (List (List Char))

/-- `INSERT INTO documents (content, embedding) VALUES (%s, %s)` executed on
a `VECTOR(768)` column: pgvector rejects a vector whose length differs from
the declared dimension, raising an error (which the caller's broad `except`
turns into a failed ingestion); otherwise the row is appended. -/
def insertRow (db : DB) (content : List Char) (e : List ℝ) : Option DB :=
  if e.length = VECTOR_DIMENSION then some (db ++ [⟨content, e⟩]) else none

/-- Result of `ingest_data`: the returned boolean, the table contents, and
the list of prompts sent to the embedding service, in request order. -/
structure IngestResult where
  success : Bool
  db : DB
  requests : List (List Char)


/-- The `for chunk in chunks` loop of `ingest_data` (lines 157–180): for each
chunk, request an embedding; on embedding failure (`ollama.RequestError` /
`ollama.ResponseError`) or on any exception from the insert, return `False`
at once (the connection is in autocommit mode, so prior inserts remain);
otherwise insert and continue. -/
def ingestLoop (embed : Embed) : List (List Char) → DB → List (List Char) → IngestResult
  | [], db, reqs => ⟨true, db, reqs⟩
  | c :: cs, db, reqs =>
    match embed c with
    | none => ⟨false, db, reqs ++ [c]⟩
    | some e =>
      match insertRow db c e with
      | none => ⟨false, db, reqs ++ [c]⟩
      | some db' => ingestLoop embed cs db' (reqs ++ [c])

/-- `ingest_data` (lines 132–183), with the document a parameter (the source
hardcodes `sampleDocument`): split into chunks, then run the ingestion loop
over the table, finally returning `True` when every chunk was processed. -/
def ingest_data (embed : Embed) (document : List Char) (db : DB) : IngestResult :=
  ingestLoop embed (chunksOf document) db []

/-- Dot product of two vectors, the `u · v` in the cosine-distance formula
implemented by the pgvector operator used in the query. -/
def dot (u v : List ℝ) : ℝ := (List.zipWith (· * ·) u v).sum

/-- Cosine distance, the semantics of the pgvector `<=>` operator used in
the `ORDER BY embedding <=> %s::vector` clause:
`1 - (u · v) / (‖u‖ ‖v‖)`. -/
noncomputable def cosineDistance (u v : List ℝ) : ℝ :=
  1 - dot u v / (Real.sqrt (dot u u) * Real.sqrt (dot v v))

/-- The comparison realising `ORDER BY embedding <=> q`: row `r₁` comes no
later than `r₂` when its stored vector is at no greater cosine distance
from the query vector. -/
noncomputable def distLe (q : List ℝ) (r₁ r₂ : Row) : Bool :=
  decide (cosineDistance r₁.embedding q ≤ cosineDistance r₂.embedding q)

/-- `SELECT content FROM documents ORDER BY embedding <=> %s::vector LIMIT 3`
(lines 210–218), before the `content` projection: sort the rows by cosine
distance to the query vector (a stable sort, a valid realisation of the
unspecified tie order) and keep the first three. -/
noncomputable def selectRows (db : DB) (q : List ℝ) : List Row :=
  (db.mergeSort (distLe q)).take 3

/-- The retrieved documents of `run_rag_query`: the `content` column of the
top-3 rows, as fetched into `retrieved_docs` (line 221). -/
noncomputable def selectTop3 (db : DB) (q : List ℝ) : List (List Char) :=
  (selectRows db q).map Row.content

/-- `context = " ".join(retrieved_docs)` (line 228). -/
def joinSpace (docs : List (List Char)) : List Char :=
  List.intercalate [' '] docs

/-- The f-string prompt template of line 231, around a context and the
user's question. -/
def promptFor (context question : List Char) : List Char :=
  ("Based on the provided context, answer the question clearly and helpfully. Use only information from the context.\n\nContext: ".data)
    ++ context
    ++ ("\n\nQuestion: ".data) ++ question
    ++ ("\n\nAnswer:".data)

/-- The observable outcome of `run_rag_query`: the fetched documents, the
prompt sent to the generation service (when the flow reached it), and the
returned value (`None` on any caught failure, otherwise the accumulated
`full_response`). -/
structure RagOutcome where
  retrieved : List (List Char)
  generationPrompt : Option (List Char)
  answer : Option (List Char)

/-- `run_rag_query` (lines 186–257): embed the question; on failure return
`None`. Retrieve the three nearest rows, join their contents with single
spaces, build the prompt, and stream the generation; on failure return
`None`, otherwise return the concatenation of the streamed fragments
(`full_response += response_text`). -/
noncomputable def run_rag_query (embed : Embed) (generate : Generate)
    (db : DB) (user_query : List Char) : RagOutcome :=
  match embed user_query with
  | none => ⟨[], none, none⟩
  | some query_embedding =>
    let retrieved_docs := selectTop3 db query_embedding
    let context := joinSpace retrieved_docs
    let prompt := promptFor context user_query
    match generate prompt with
    | none => ⟨retrieved_docs, some prompt, none⟩
    | some stream => ⟨retrieved_docs, some prompt,
        some (stream.foldl (fun acc frag => acc ++ frag) [])⟩

/-- The external conditions of one run: whether the store is reachable
(`psycopg.connect` succeeds) and whether the `vector` extension is
installed (the `pg_extension` probe of line 102 finds a row). -/
structure World where
  connectOk : Bool
  extensionPresent : Bool

/-- Database-side state beyond the connection: the `documents` table,
`none` when it does not exist. -/
structure PgState where
  documents : Option DB

/-- The console diagnostic of each `setup_database` failure path. -/
inductive Report
  | connectivity
  | missingExtension

/-- Result of `setup_database`: the returned value (a connection or `None`),
the table state afterwards, whether a connection was actually opened, and
which failure was reported. -/
structure SetupResult where
  conn : Option Unit
  pg : PgState
  connOpened : Bool
  report : Option Report

/-- `setup_database` (lines 81–129): connect (on `OperationalError` report
connectivity failure and return `None`); check the `vector` extension (if
absent report the configuration problem and return `None`, with the
connection left open); otherwise `DROP TABLE IF EXISTS documents` then
`CREATE TABLE documents (...)` and return the connection. -/
def setup_database (w : World) (pg : PgState) : SetupResult :=
  if w.connectOk then
    if w.extensionPresent then
      ⟨some (), ⟨some []⟩, true, none⟩
    else
      ⟨none, pg, true, some .missingExtension⟩
  else
    ⟨none, pg, false, some .connectivity⟩

/-- The hardcoded sample document of lines 140–146 (a Python triple-quoted
string: leading newline, four-space indents, trailing newline and indent). -/
def sampleDocument : List Char :=
  ("\n    A llama is a domesticated South American camelid, widely used as a meat and pack animal by Andean cultures since the pre-Columbian era.\n    Llamas are social animals and live in herds. The largest are the guanacos, which can weigh up to 300 pounds.\n    Llamas can be quite calm and cooperative if they are raised correctly, which makes them great companions for people in the mountains.\n    A female llama gives birth standing up. The gestation period for a llama is about 11.5 months.\n    The llamas have long, thick necks, a small head with a cleft upper lip, and long ears.\n    ").data

/-- The hardcoded question of line 279. -/
def userQuestion : List Char :=
  ("What makes a llama a good companion?").data

/-- The observable trace of one `main` run: whether a connection was opened
and whether it was closed before the process exited, which stages ran, and
the table state after each stage (unchanged when a stage did not run). -/
structure RunTrace where
  connOpened : Bool
  connClosed : Bool
  ingestCalled : Bool
  queryCalled : Bool
  pgAfterSetup : PgState
  pgAfterIngest : PgState
  finalPg : PgState

/-- `main` (lines 260–282): set up the database (if it returned `None`,
return — without closing any connection the setup may have opened); ingest
the sample document (on failure close the connection and return); run the
RAG query on the hardcoded question; close the connection. -/
noncomputable def main (w : World) (pg₀ : PgState) (embed : Embed) (generate : Generate) : RunTrace :=
  let s := setup_database w pg₀
  match s.conn with
  | none => ⟨s.connOpened, false, false, false, s.pg, s.pg, s.pg⟩
  | some _ =>
    let ir := ingest_data embed sampleDocument (s.pg.documents.getD [])
    let pg₁ : PgState := ⟨some ir.db⟩
    if ir.success then
      let _ := run_rag_query embed generate ir.db userQuestion
      ⟨true, true, true, true, s.pg, pg₁, pg₁⟩
    else
      ⟨true, true, true, false, s.pg, pg₁, pg₁⟩

end RagTutorial

namespace RagTutorial

/-- When every chunk in `cs` embeds successfully to a vector of the declared
dimension, the ingestion loop succeeds, appends one row per chunk in order,
and requests exactly one embedding per chunk. -/
lemma ingestLoop_all_ok (embed : Embed) (f : List Char → List ℝ) :
    ∀ (cs : List (List Char)) (db : DB) (reqs : List (List Char)),
    (∀ c ∈ cs, embed c = some (f c) ∧ (f c).length = VECTOR_DIMENSION) →
    ingestLoop embed cs db reqs =
      ⟨true, db ++ cs.map (fun c => ⟨c, f c⟩), reqs ++ cs⟩
  | [], db, reqs, _ => by simp [ingestLoop]
  | c :: cs, db, reqs, h => by
    obtain ⟨he, hlen⟩ := h c (List.mem_cons_self c cs)
    have ih := ingestLoop_all_ok embed f cs (db ++ [⟨c, f c⟩]) (reqs ++ [c])
      (fun c' hc' => h c' (List.mem_cons_of_mem c hc'))
    simp only [ingestLoop, he, insertRow, if_pos hlen, ih]
    simp

/-- When every chunk before `c` embeds successfully with the declared
dimension and the embedding request for `c` fails, the ingestion loop stops
at `c`: it returns failure, the rows are exactly those for the chunks before
`c`, and no chunk after `c` is ever requested. -/
lemma ingestLoop_fail_at (embed : Embed) (f : List Char → List ℝ) :
    ∀ (pre : List (List Char)) (c : List Char) (post : List (List Char))
      (db : DB) (reqs : List (List Char)),
    (∀ c' ∈ pre, embed c' = some (f c') ∧ (f c').length = VECTOR_DIMENSION) →
    embed c = none →
    ingestLoop embed (pre ++ c :: post) db reqs =
      ⟨false, db ++ pre.map (fun c' => ⟨c', f c'⟩), reqs ++ pre ++ [c]⟩
  | [], c, post, db, reqs, _, hfail => by
    simp [ingestLoop, hfail]
  | c' :: pre, c, post, db, reqs, hpre, hfail => by
    obtain ⟨he, hlen⟩ := hpre c' (List.mem_cons_self c' pre)
    have ih := ingestLoop_fail_at embed f pre c post (db ++ [⟨c', f c'⟩]) (reqs ++ [c'])
      (fun x hx => hpre x (List.mem_cons_of_mem c' hx)) hfail
    simp only [List.cons_append, ingestLoop, he, insertRow, if_pos hlen, List.append_eq]
    rw [ih]
    simp [List.append_assoc]

/-- C1: for every non-empty input document, ingestion processes exactly the
list of trimmed non-empty fragments obtained by splitting on `'.'`
(one embedding request per fragment, in order), and when every embedding
request succeeds (returning a vector of the configured dimension, as the
configured model does), it succeeds and the number of rows stored in the
`documents` table equals the number of those fragments. -/
theorem c1_store_count_eq_chunk_count (embed : Embed) (document : List Char)
    (_hne : document ≠ [])
    (hok : ∀ c ∈ chunksOf document,
      ∃ e, embed c = some e ∧ e.length = VECTOR_DIMENSION) :
    (ingest_data embed document []).success = true ∧
    (ingest_data embed document []).db.length = (chunksOf document).length ∧
    (ingest_data embed document []).requests = chunksOf document := by
  classical
  choose f hf hflen using fun c (hc : c ∈ chunksOf document) => hok c hc
  have h := ingestLoop_all_ok embed
    (fun c => if hc : c ∈ chunksOf document then f c hc else [])
    (chunksOf document) [] []
    (fun c hc => by simp only [dif_pos hc]; exact ⟨hf c hc, hflen c hc⟩)
  unfold ingest_data
  rw [h]
  simp

/-- Constant embedding oracle used in witnesses: every request succeeds with
the all-zero vector of the configured dimension. -/
def constEmbed : Embed := fun _ => some (List.replicate VECTOR_DIMENSION 0)

/-- C1 witness: the concrete document `"Hi."` is non-empty, every embedding
request succeeds, and ingestion stores one record for its one fragment. -/
theorem c1_store_count_eq_chunk_count_witness :
    ("Hi.".data ≠ [] ∧
      ∀ c ∈ chunksOf "Hi.".data,
        ∃ e, constEmbed c = some e ∧ e.length = VECTOR_DIMENSION) ∧
    (ingest_data constEmbed "Hi.".data []).success = true ∧
    (ingest_data constEmbed "Hi.".data []).db.length = (chunksOf "Hi.".data).length ∧
    (ingest_data constEmbed "Hi.".data []).requests = chunksOf "Hi.".data := by
  refine ⟨⟨by decide, fun c _ => ⟨_, rfl, by simp⟩⟩, ?_⟩
  exact c1_store_count_eq_chunk_count constEmbed "Hi.".data (by decide)
    (fun c _ => ⟨_, rfl, by simp⟩)

/-- C2: when the embedding request for chunk `c` fails after the chunks of
`pre` succeeded, `ingest_data` returns `False` at once: the stored rows are
exactly the (uncorrupted) rows for the chunks before the failure, and the
requests made are exactly one per chunk up to and including `c` — no retry,
nothing after the failure. -/
theorem c2_abort_on_embed_failure (embed : Embed) (document : List Char)
    (pre : List (List Char)) (c : List Char) (post : List (List Char))
    (f : List Char → List ℝ)
    (hsplit : chunksOf document = pre ++ c :: post)
    (hpre : ∀ c' ∈ pre, embed c' = some (f c') ∧ (f c').length = VECTOR_DIMENSION)
    (hfail : embed c = none) :
    ingest_data embed document [] =
      ⟨false, pre.map (fun c' => ⟨c', f c'⟩), pre ++ [c]⟩ := by
  unfold ingest_data
  rw [hsplit, ingestLoop_fail_at embed f pre c post [] [] hpre hfail]
  simp

/-- Embedding oracle used in witnesses that fails on every chunk except
`"A"`. -/
def failOnBEmbed : Embed :=
  fun s => if s = ['A'] then some (List.replicate VECTOR_DIMENSION 0) else none

/-- C2 witness: on document `"A. B."` with an oracle that embeds `"A"` but
fails on `"B"`, ingestion aborts with exactly the row for `"A"` stored. -/
theorem c2_abort_on_embed_failure_witness :
    (chunksOf "A. B.".data = [['A']] ++ ['B'] :: [] ∧
      (∀ c' ∈ [['A']], failOnBEmbed c' = some (List.replicate VECTOR_DIMENSION 0) ∧
        (List.replicate VECTOR_DIMENSION (0 : ℝ)).length = VECTOR_DIMENSION) ∧
      failOnBEmbed ['B'] = none) ∧
    ingest_data failOnBEmbed "A. B.".data [] =
      ⟨false, [['A']].map (fun c' => ⟨c', List.replicate VECTOR_DIMENSION 0⟩), [['A']] ++ [['B']]⟩ := by
  refine ⟨⟨by decide, fun c' hc' => ⟨?_, by simp⟩, rfl⟩, ?_⟩
  · simp only [List.mem_singleton] at hc'
    subst hc'
    rfl
  · exact c2_abort_on_embed_failure failOnBEmbed "A. B.".data [['A']] ['B'] []
      (fun _ => List.replicate VECTOR_DIMENSION 0) (by decide)
      (fun c' hc' => by
        simp only [List.mem_singleton] at hc'
        subst hc'
        exact ⟨rfl, by simp⟩)
      rfl

/-- C9: when the document yields no non-empty fragments after splitting and
trimming, `ingest_data` makes no embedding requests, inserts no rows, and
still returns `True`. -/
theorem c9_empty_document_succeeds (embed : Embed) (document : List Char) (db : DB)
    (h : chunksOf document = []) :
    ingest_data embed document db = ⟨true, db, []⟩ := by
  unfold ingest_data
  rw [h]
  rfl

/-- C9 witness: the whitespace-and-period document `" . . "` yields no
fragments, and ingestion on the empty table leaves it empty, makes no
requests, and returns `True`. -/
theorem c9_empty_document_succeeds_witness :
    chunksOf " . . ".data = [] ∧
    ingest_data constEmbed " . . ".data [] = ⟨true, [], []⟩ :=
  ⟨by decide, c9_empty_document_succeeds constEmbed " . . ".data [] (by decide)⟩

/-- The comparison backing `ORDER BY` is transitive. -/
lemma distLe_trans (q : List ℝ) (a b c : Row) :
    distLe q a b → distLe q b c → distLe q a c := by
  simp only [distLe, decide_eq_true_eq]
  exact le_trans

/-- The comparison backing `ORDER BY` is total. -/
lemma distLe_total (q : List ℝ) (a b : Row) : distLe q a b || distLe q b a := by
  simp only [distLe, Bool.or_eq_true, decide_eq_true_eq]
  exact le_total _ _

/-- C3: for every table contents and query vector, the nearest-neighbor
retrieval of `run_rag_query` returns at most 3 rows, ordered by
non-decreasing cosine distance between the stored vector and the query
vector; the retrieved documents are exactly their `content` fields. -/
theorem c3_top3_sorted (db : DB) (q : List ℝ) :
    (selectRows db q).length ≤ 3 ∧
    (selectRows db q).Pairwise
      (fun r₁ r₂ => cosineDistance r₁.embedding q ≤ cosineDistance r₂.embedding q) ∧
    selectTop3 db q = (selectRows db q).map Row.content := by
  refine ⟨List.length_take_le 3 _, ?_, rfl⟩
  have hs : (db.mergeSort (distLe q)).Pairwise (fun a b => distLe q a b) :=
    List.sorted_mergeSort (distLe_trans q) (distLe_total q) db
  have hp : (selectRows db q).Pairwise (fun a b => distLe q a b) :=
    List.Pairwise.sublist (List.take_sublist 3 _) hs
  exact hp.imp (fun h => by simpa [distLe, decide_eq_true_eq] using h)

/-- The first row returned by the `ORDER BY ... LIMIT 3` query is the row at
strictly minimal cosine distance to the query vector, when such a row is in
the table. -/
lemma head_selectRows_of_strict_min (db : DB) (q : List ℝ) (r : Row)
    (hr : r ∈ db)
    (hmin : ∀ r' ∈ db, r' ≠ r →
      cosineDistance r.embedding q < cosineDistance r'.embedding q) :
    (selectRows db q).head? = some r := by
  have hperm := List.mergeSort_perm db (distLe q)
  have hs : (db.mergeSort (distLe q)).Pairwise (fun a b => distLe q a b) :=
    List.sorted_mergeSort (distLe_trans q) (distLe_total q) db
  have hrm : r ∈ db.mergeSort (distLe q) := List.mem_mergeSort.mpr hr
  obtain ⟨h, t, hht⟩ : ∃ h t, db.mergeSort (distLe q) = h :: t := by
    cases hcase : db.mergeSort (distLe q) with
    | nil => rw [hcase] at hrm; exact absurd hrm (List.not_mem_nil r)
    | cons h t => exact ⟨h, t, rfl⟩
  have hhd : h ∈ db := List.mem_mergeSort.mp (hht ▸ List.mem_cons_self h t)
  have hhr : h = r := by
    by_contra hne
    have hrt : r ∈ t := by
      rcases List.mem_cons.mp (hht ▸ hrm : r ∈ h :: t) with h1 | h1
      · exact absurd h1.symm hne
      · exact h1
    have hle : distLe q h r := by
      rw [hht] at hs
      exact (List.pairwise_cons.mp hs).1 r hrt
    have hle' : cosineDistance h.embedding q ≤ cosineDistance r.embedding q := by
      simpa [distLe, decide_eq_true_eq] using hle
    exact absurd (lt_of_lt_of_le (hmin h hhd hne) hle') (lt_irrefl _)
  unfold selectRows
  rw [hht, hhr]
  rfl

/-- The document of the end-to-end scenario. -/
def docABC : List Char := "A. B. C.".data

/-- C8: the document `"A. B. C."` yields exactly the chunks `"A"`, `"B"`,
`"C"`; when each embeds successfully (to a vector of the configured
dimension), ingestion stores exactly one record per chunk; and for any query
vector strictly closest in cosine distance to the embedding of `"B"`, the
retrieval returns `"B"` as the top-ranked chunk. -/
theorem c8_end_to_end (embed : Embed) (eA eB eC q : List ℝ)
    (hA : embed ['A'] = some eA) (hB : embed ['B'] = some eB)
    (hC : embed ['C'] = some eC)
    (hlA : eA.length = VECTOR_DIMENSION) (hlB : eB.length = VECTOR_DIMENSION)
    (hlC : eC.length = VECTOR_DIMENSION)
    (hqA : cosineDistance eB q < cosineDistance eA q)
    (hqC : cosineDistance eB q < cosineDistance eC q) :
    chunksOf docABC = [['A'], ['B'], ['C']] ∧
    (ingest_data embed docABC []).success = true ∧
    (ingest_data embed docABC []).db = [⟨['A'], eA⟩, ⟨['B'], eB⟩, ⟨['C'], eC⟩] ∧
    (selectTop3 (ingest_data embed docABC []).db q).head? = some ['B'] := by
  have hchunks : chunksOf docABC = [['A'], ['B'], ['C']] := by decide
  have hingest : ingest_data embed docABC [] =
      ⟨true, [⟨['A'], eA⟩, ⟨['B'], eB⟩, ⟨['C'], eC⟩], [['A'], ['B'], ['C']]⟩ := by
    unfold ingest_data
    rw [hchunks]
    have h := ingestLoop_all_ok embed
      (fun c => if c = ['A'] then eA else if c = ['B'] then eB else eC)
      [['A'], ['B'], ['C']] [] []
      (by
        intro c hc
        rcases List.mem_cons.mp hc with rfl | hc
        · simpa using ⟨hA, hlA⟩
        rcases List.mem_cons.mp hc with rfl | hc
        · simpa using ⟨hB, hlB⟩
        rcases List.mem_cons.mp hc with rfl | hc
        · simpa using ⟨hC, hlC⟩
        · exact absurd hc (List.not_mem_nil c))
    rw [h]
    simp
  refine ⟨hchunks, by rw [hingest], by rw [hingest], ?_⟩
  rw [hingest]
  have hhead : (selectRows [⟨['A'], eA⟩, ⟨['B'], eB⟩, ⟨['C'], eC⟩] q).head? =
      some ⟨['B'], eB⟩ := by
    apply head_selectRows_of_strict_min
    · simp
    · intro r' hr' hne
      rcases List.mem_cons.mp hr' with rfl | hr'
      · exact hqA
      rcases List.mem_cons.mp hr' with rfl | hr'
      · exact absurd rfl hne
      rcases List.mem_cons.mp hr' with rfl | hr'
      · exact hqC
      · exact absurd hr' (List.not_mem_nil r')
  unfold selectTop3
  rw [List.head?_map, hhead]
  rfl

/-- Witness query/embedding vector: `(1, 0, …, 0)` with 768 entries. -/
def vPlus : List ℝ := 1 :: List.replicate 767 0

/-- Witness embedding vector: `(-1, 0, …, 0)` with 768 entries. -/
def vMinus : List ℝ := (-1) :: List.replicate 767 0

/-- Witness embedding oracle for the end-to-end scenario: `"B"` maps to
`vPlus`, `"A"` and `"C"` map to `vMinus`. -/
def abcEmbed : Embed :=
  fun s => if s = ['A'] then some vMinus
    else if s = ['B'] then some vPlus
    else if s = ['C'] then some vMinus
    else none

/-- Dot product of two conses. -/
lemma dot_cons (a b : ℝ) (u v : List ℝ) :
    dot (a :: u) (b :: v) = a * b + dot u v := by
  simp [dot]

/-- A zero vector is orthogonal to everything. -/
lemma dot_replicate_zero : ∀ (n : Nat) (v : List ℝ), dot (List.replicate n 0) v = 0
  | 0, _ => by simp [dot]
  | _ + 1, [] => by simp [dot]
  | n + 1, b :: v => by
    rw [List.replicate_succ, dot_cons, dot_replicate_zero n v]
    ring

/-- `vPlus · vPlus = 1`. -/
lemma dot_vPlus_vPlus : dot vPlus vPlus = 1 := by
  rw [vPlus, dot_cons, dot_replicate_zero]
  ring

/-- `vMinus · vMinus = 1`. -/
lemma dot_vMinus_vMinus : dot vMinus vMinus = 1 := by
  rw [vMinus, dot_cons, dot_replicate_zero]
  ring

/-- `vMinus · vPlus = -1`. -/
lemma dot_vMinus_vPlus : dot vMinus vPlus = -1 := by
  rw [vMinus, vPlus, dot_cons, dot_replicate_zero]
  ring

/-- `vPlus` has the configured dimension. -/
lemma vPlus_length : vPlus.length = VECTOR_DIMENSION := by
  rw [vPlus, List.length_cons, List.length_replicate]
  rfl

/-- `vMinus` has the configured dimension. -/
lemma vMinus_length : vMinus.length = VECTOR_DIMENSION := by
  rw [vMinus, List.length_cons, List.length_replicate]
  rfl

/-- The cosine distance from `vPlus` to itself is `0`. -/
lemma cosineDistance_vPlus_vPlus : cosineDistance vPlus vPlus = 0 := by
  rw [cosineDistance, dot_vPlus_vPlus, Real.sqrt_one]
  norm_num

/-- The cosine distance from `vMinus` to `vPlus` is `2`. -/
lemma cosineDistance_vMinus_vPlus : cosineDistance vMinus vPlus = 2 := by
  rw [cosineDistance, dot_vMinus_vPlus, dot_vMinus_vMinus, dot_vPlus_vPlus,
    Real.sqrt_one]
  norm_num

/-- C8 witness: with `"B" ↦ (1,0,…,0)`, `"A","C" ↦ (-1,0,…,0)` and the query
vector `(1,0,…,0)`, all hypotheses hold concretely and the top-ranked
retrieved chunk for the ingested `"A. B. C."` table is `"B"`. -/
theorem c8_end_to_end_witness :
    (abcEmbed ['A'] = some vMinus ∧ abcEmbed ['B'] = some vPlus ∧
      abcEmbed ['C'] = some vMinus ∧
      vMinus.length = VECTOR_DIMENSION ∧ vPlus.length = VECTOR_DIMENSION ∧
      cosineDistance vPlus vPlus < cosineDistance vMinus vPlus) ∧
    chunksOf docABC = [['A'], ['B'], ['C']] ∧
    (ingest_data abcEmbed docABC []).success = true ∧
    (ingest_data abcEmbed docABC []).db =
      [⟨['A'], vMinus⟩, ⟨['B'], vPlus⟩, ⟨['C'], vMinus⟩] ∧
    (selectTop3 (ingest_data abcEmbed docABC []).db vPlus).head? = some ['B'] := by
  have hlt : cosineDistance vPlus vPlus < cosineDistance vMinus vPlus := by
    rw [cosineDistance_vPlus_vPlus, cosineDistance_vMinus_vPlus]
    exact two_pos
  refine ⟨⟨rfl, rfl, rfl, vMinus_length, vPlus_length, hlt⟩, ?_⟩
  exact c8_end_to_end abcEmbed vMinus vPlus vMinus vPlus rfl rfl rfl
    vMinus_length vPlus_length vMinus_length hlt hlt

/-- On a run where the store is reachable and the extension is present,
`main` reduces to: set up the fresh empty table, ingest the sample document
into it, and (depending on ingestion success) run or skip the query stage,
closing the connection either way. -/
lemma main_tt (pg₀ : PgState) (embed : Embed) (generate : Generate) :
    main ⟨true, true⟩ pg₀ embed generate =
      if (ingest_data embed sampleDocument []).success
      then ⟨true, true, true, true, ⟨some []⟩,
        ⟨some (ingest_data embed sampleDocument []).db⟩,
        ⟨some (ingest_data embed sampleDocument []).db⟩⟩
      else ⟨true, true, true, false, ⟨some []⟩,
        ⟨some (ingest_data embed sampleDocument []).db⟩,
        ⟨some (ingest_data embed sampleDocument []).db⟩⟩ := rfl

/-- The `documents` table rows all carry vectors of the configured
dimension. -/
def dbDim (db : DB) : Prop :=
  ∀ r ∈ db, r.embedding.length = VECTOR_DIMENSION

/-- The dimension invariant on the database state: every vector stored in
the `documents` table has length `VECTOR_DIMENSION`. -/
def pgInv (pg : PgState) : Prop :=
  dbDim (pg.documents.getD [])

/-- The ingestion loop preserves the dimension invariant: the only writes go
through `insertRow`, which only accepts vectors of the declared dimension. -/
lemma ingestLoop_dim (embed : Embed) :
    ∀ (cs : List (List Char)) (db : DB) (reqs : List (List Char)),
    dbDim db → dbDim (ingestLoop embed cs db reqs).db
  | [], db, reqs, h => h
  | c :: cs, db, reqs, h => by
    cases he : embed c with
    | none =>
      simp only [ingestLoop, he]
      exact h
    | some e =>
      by_cases hlen : e.length = VECTOR_DIMENSION
      · simp only [ingestLoop, he, insertRow, if_pos hlen]
        exact ingestLoop_dim embed cs (db ++ [⟨c, e⟩]) (reqs ++ [c])
          (fun r hr => by
            rcases List.mem_append.mp hr with hr | hr
            · exact h r hr
            · rw [List.mem_singleton.mp hr]
              exact hlen)
      · simp only [ingestLoop, he, insertRow, if_neg hlen]
        exact h

/-- C4: starting from any database state satisfying the dimension invariant,
every vector stored in the `documents` table has length exactly the
configured dimension (768) after each stage of any run — after setup, after
ingestion, and at process exit. -/
theorem c4_dimension_invariant (w : World) (pg₀ : PgState)
    (embed : Embed) (generate : Generate) (h : pgInv pg₀) :
    pgInv (main w pg₀ embed generate).pgAfterSetup ∧
    pgInv (main w pg₀ embed generate).pgAfterIngest ∧
    pgInv (main w pg₀ embed generate).finalPg := by
  rcases w with ⟨co, ext⟩
  cases co with
  | false => exact ⟨h, h, h⟩
  | true =>
    cases ext with
    | false => exact ⟨h, h, h⟩
    | true =>
      have hempty : dbDim [] := fun r hr => absurd hr (List.not_mem_nil r)
      have hing : dbDim (ingest_data embed sampleDocument []).db :=
        ingestLoop_dim embed (chunksOf sampleDocument) [] [] hempty
      rw [main_tt]
      cases hsucc : (ingest_data embed sampleDocument []).success <;>
        simp only [hsucc, Bool.false_eq_true, if_false, if_true] <;>
        exact ⟨hempty, hing, hing⟩

/-- Witness embedding oracle that always fails. -/
def noEmbed : Embed := fun _ => none

/-- Witness generation oracle that always fails. -/
def noGenerate : Generate := fun _ => none

/-- C4 witness: a run from the empty database state (no `documents` table)
keeps the dimension invariant at every stage. -/
theorem c4_dimension_invariant_witness :
    pgInv ⟨none⟩ ∧
    (pgInv (main ⟨true, true⟩ ⟨none⟩ noEmbed noGenerate).pgAfterSetup ∧
      pgInv (main ⟨true, true⟩ ⟨none⟩ noEmbed noGenerate).pgAfterIngest ∧
      pgInv (main ⟨true, true⟩ ⟨none⟩ noEmbed noGenerate).finalPg) := by
  have h : pgInv (⟨none⟩ : PgState) := fun r hr => absurd hr (List.not_mem_nil r)
  exact ⟨h, c4_dimension_invariant ⟨true, true⟩ ⟨none⟩ noEmbed noGenerate h⟩

/-- C5 counterexample: in the run where the store is reachable but the
`vector` extension is absent, `setup_database` opens the connection, returns
`None` without closing it, and `main` returns at once — the process
terminates with the connection still open. -/
theorem c5_counterexample_extension_missing :
    (main ⟨true, false⟩ ⟨none⟩ noEmbed noGenerate).connOpened = true ∧
    (main ⟨true, false⟩ ⟨none⟩ noEmbed noGenerate).connClosed = false :=
  ⟨rfl, rfl⟩

/-- C5 as amended: on every exit path other than the missing-extension abort
(that is, whenever the store is reachable and the `vector` extension is
present), the connection opened at startup is closed before the process
exits. -/
theorem c5_connection_closed_except_missing_extension
    (w : World) (pg₀ : PgState) (embed : Embed) (generate : Generate)
    (h1 : w.connectOk = true) (h2 : w.extensionPresent = true) :
    (main w pg₀ embed generate).connOpened = true ∧
    (main w pg₀ embed generate).connClosed = true := by
  rcases w with ⟨co, ext⟩
  subst h1
  subst h2
  rw [main_tt]
  cases hsucc : (ingest_data embed sampleDocument []).success <;>
    simp [hsucc]

/-- C5 amended-claim witness: a concrete run with a reachable store and the
extension present (here with an always-failing embedding service, so
ingestion aborts) closes the connection before exiting. -/
theorem c5_connection_closed_witness :
    ((⟨true, true⟩ : World).connectOk = true ∧
      (⟨true, true⟩ : World).extensionPresent = true) ∧
    (main ⟨true, true⟩ ⟨none⟩ noEmbed noGenerate).connOpened = true ∧
    (main ⟨true, true⟩ ⟨none⟩ noEmbed noGenerate).connClosed = true :=
  ⟨⟨rfl, rfl⟩,
    c5_connection_closed_except_missing_extension ⟨true, true⟩ ⟨none⟩
      noEmbed noGenerate rfl rfl⟩

/-- C6: when the store is reachable but the `vector` extension is absent,
`setup_database` reports the configuration error and returns no connection,
the `documents` table is neither dropped nor created (the table state is
unchanged), and `main` never invokes ingestion. -/
theorem c6_missing_extension_aborts_before_writes
    (pg₀ : PgState) (embed : Embed) (generate : Generate) :
    (setup_database ⟨true, false⟩ pg₀).conn = none ∧
    (setup_database ⟨true, false⟩ pg₀).pg = pg₀ ∧
    (setup_database ⟨true, false⟩ pg₀).report = some .missingExtension ∧
    (main ⟨true, false⟩ pg₀ embed generate).ingestCalled = false :=
  ⟨rfl, rfl, rfl, rfl⟩

/-- C7: when the store is unreachable (whether or not the extension would be
present), `setup_database` reports the connectivity failure and returns no
connection, the table state is unchanged, and neither ingestion nor the
query stage runs. -/
theorem c7_unreachable_store_aborts
    (ext : Bool) (pg₀ : PgState) (embed : Embed) (generate : Generate) :
    (setup_database ⟨false, ext⟩ pg₀).conn = none ∧
    (setup_database ⟨false, ext⟩ pg₀).pg = pg₀ ∧
    (setup_database ⟨false, ext⟩ pg₀).report = some .connectivity ∧
    (main ⟨false, ext⟩ pg₀ embed generate).ingestCalled = false ∧
    (main ⟨false, ext⟩ pg₀ embed generate).queryCalled = false :=
  ⟨rfl, rfl, rfl, rfl, rfl⟩

/-- C10: on an empty `documents` table, when the embedding of the question
and the generation call both succeed, `run_rag_query` retrieves zero
records, still calls the generation service with the fixed prompt template
around the empty context and the question, and returns the concatenation,
in order, of all streamed fragments. -/
theorem c10_empty_table_query (embed : Embed) (generate : Generate)
    (q : List Char) (qe : List ℝ) (frags : List (List Char))
    (h1 : embed q = some qe)
    (h2 : generate (promptFor [] q) = some frags) :
    run_rag_query embed generate [] q =
      ⟨[], some (promptFor [] q),
        some (frags.foldl (fun acc frag => acc ++ frag) [])⟩ := by
  have hsel : selectTop3 [] qe = [] := by
    unfold selectTop3 selectRows
    simp
  have hjoin : joinSpace [] = [] := rfl
  unfold run_rag_query
  rw [h1]
  simp only [hsel, hjoin, h2]

/-- Witness embedding oracle that embeds everything to the zero vector. -/
def zeroEmbed : Embed := fun _ => some (List.replicate VECTOR_DIMENSION 0)

/-- Witness generation oracle that streams the two fragments `"ok"`,
`"!"` for every prompt. -/
def okGenerate : Generate := fun _ => some ["ok".data, "!".data]

/-- C10 witness: on the empty table, with concrete always-succeeding
oracles, the query retrieves nothing, prompts the generator on the empty
context, and returns the concatenated stream `"ok!"`. -/
theorem c10_empty_table_query_witness :
    (zeroEmbed "Q?".data = some (List.replicate VECTOR_DIMENSION 0) ∧
      okGenerate (promptFor [] "Q?".data) = some ["ok".data, "!".data]) ∧
    run_rag_query zeroEmbed okGenerate [] "Q?".data =
      ⟨[], some (promptFor [] "Q?".data),
        some (["ok".data, "!".data].foldl (fun acc frag => acc ++ frag) [])⟩ :=
  ⟨⟨rfl, rfl⟩,
    c10_empty_table_query zeroEmbed okGenerate "Q?".data
      (List.replicate VECTOR_DIMENSION 0) ["ok".data, "!".data] rfl rfl⟩

end RagTutorial
